import Mathlib

/-!
# Warehouse management mirror: shallow embedding

Shallow embedding of the state-synchronization and audit layer of the
warehouse-management application (`src/types.ts`: the entity model together
with the `App` component's mutation handlers and derived views).

Modelling conventions:

* JavaScript numbers that hold integral quantities (temperatures, stock
  quantities, millisecond timestamps) are modelled as `Int`.
* A `Record<string, number>` (the room inventory) is modelled as an
  association list `List (String × Int)` in key insertion order; `getQty`
  models property access and `setKey` models property assignment.
* `null` is modelled by `Option`; the JavaScript falsiness test
  `!room.fermentationStart` (false exactly for `null`, `0`, `NaN`) is
  modelled by `jsFalsyTimestamp` (true for `none` and `some 0`).
* The remote store adapter (`services/storage.ts`) is not part of the
  sources; its write operations are modelled from the spec (§6 External
  Interfaces) as pass-through writes, and the subscription round-trip that
  copies the remote state back into the local mirror is modelled by
  applying the write directly to the mirrored room list.  A write that the
  remote store rejects is modelled by the boolean `writeOk` argument of
  each handler: when it is `false` the `await` raises, so the handler stops
  before the log append and the mirror is unchanged.
* Each handler returns, besides the new mirror state, the list of network
  calls it issued against the store adapter, so that "rejected before any
  network call" is expressible.
-/

/-- The `UserRole` enum of `src/types.ts`. -/
inductive UserRole where
  | ADMIN
  | AUDITOR
  | GUEST
deriving Repr, DecidableEq

/-- The string value carried by each `UserRole` enum member. -/
def UserRole.val : UserRole → String
  | .ADMIN => "Admin"
  | .AUDITOR => "Auditor"
  | .GUEST => "Guest"

/-- The `Room` interface of `src/types.ts`; `inventory` is the
`Record<string, number>` map of material name to quantity, modelled as an
association list in key insertion order, and `fermentationStart` is the
nullable millisecond timestamp. -/
structure Room where
  id : String
  name : String
  temperature : Int
  inventory : List (String × Int)
  fermentationStart : Option Int
deriving Repr, DecidableEq

/-- The `LogEntry` interface of `src/types.ts`.  The `id` field is assigned
by the remote store (`addLog` is called without it, spec §6) and plays no
role in any claim, so it is omitted from the model. -/
structure LogEntry where
  userRole : UserRole
  roomName : String
  action : String
  details : String
  timestamp : Int
deriving Repr, DecidableEq

/-- The `AppState` of `src/types.ts` / the `App` component's mirrored
state: the room list, the log list and the current role. -/
structure AppState where
  rooms : List Room
  logs : List LogEntry
  currentUser : UserRole
deriving Repr, DecidableEq

/-- `INITIAL_MATERIALS` from `src/types.ts`. -/
def INITIAL_MATERIALS : List String :=
  ["تفاح", "سكر", "خميرة", "عنب", "شعير", "ماء", "خشب"]

/-- Property read `inventory[material]` on the inventory record: the value
stored under the key, if present. -/
def getQty : List (String × Int) → String → Option Int
  | [], _ => none
  | (k, v) :: rest, material => if k = material then some v else getQty rest material

/-- Property assignment `inventory[material] = v` on the inventory record:
replaces the value of an existing key in place, otherwise appends the key. -/
def setKey : List (String × Int) → String → Int → List (String × Int)
  | [], material, v => [(material, v)]
  | (k, w) :: rest, material, v =>
      if k = material then (material, v) :: rest else (k, w) :: setKey rest material v

/-- `rooms.find(r => r.id === id)`: the first room with the given id. -/
def findRoom : List Room → String → Option Room
  | [], _ => none
  | r :: rest, id => if r.id = id then some r else findRoom rest id

/-- Modelled from the spec: the effect on the mirrored room list of
`StorageService.updateRoomFields(id, partialFields)` (§6) followed by the
subscription round-trip — the room with the given id is replaced by the
updated room, all other rooms are unchanged. -/
def updateRoomById : List Room → String → (Room → Room) → List Room
  | [], _, _ => []
  | r :: rest, id, g => (if r.id = id then g r else r) :: updateRoomById rest id g

/-- Modelled from the spec: `StorageService.updateStock(id, material,
newQuantity)` (§6) writes the given `newQuantity` — as computed by the
caller — to `inventory[material]` of the room with the given id. -/
def storeUpdateStock (rooms : List Room) (id material : String) (newQty : Int) :
    List Room :=
  updateRoomById rooms id (fun r => { r with inventory := setKey r.inventory material newQty })

/-- Modelled from the spec: `StorageService.addRoom(name)` (§6) creates a
Room with a generated id, zero inventory and null fermentationStart; the
generated id is passed in as `newId`. -/
def storeAddRoom (rooms : List Room) (newId name : String) : List Room :=
  rooms ++ [{ id := newId, name := name, temperature := 0,
              inventory := [], fermentationStart := none }]

/-- The `addLog` helper of `App`: builds the log entry appended for a
mutation, capturing the current role and the current timestamp. -/
def mkLog (role : UserRole) (action roomName details : String) (now : Int) : LogEntry :=
  { userRole := role, roomName := roomName, action := action,
    details := details, timestamp := now }

/-- A network call issued by a handler against the remote store adapter. -/
inductive StoreCall where
  | addRoom (name : String)
  | updateRoomFields (id : String)
  | updateStock (id material : String) (newQty : Int)
  | addLog (entry : LogEntry)
deriving Repr, DecidableEq

/-- `handleAddRoom` of `App`.  `nameInput` is the result of the `prompt`
(`none` for cancel); the JavaScript guard `if (!name) return` rejects both
`null` and the empty string before any network call.  On a successful store
write the new room reaches the mirror via the subscription round-trip and
one log entry is appended; on a failed write the `catch` branch runs and no
log entry is appended. -/
def handleAddRoom (s : AppState) (nameInput : Option String) (writeOk : Bool)
    (now : Int) (newId : String) : AppState × List StoreCall :=
  let name := nameInput.getD ""
  if name = "" then (s, [])
  else
    let entry := mkLog s.currentUser "إضافة غرفة" name "تم إنشاء غرفة جديدة" now
    if writeOk then
      ({ s with rooms := storeAddRoom s.rooms newId name, logs := s.logs ++ [entry] },
       [StoreCall.addRoom name, StoreCall.addLog entry])
    else (s, [StoreCall.addRoom name])

/-- `handleUpdateTemp` of `App`: looks the room up in the current mirror,
returns silently when the id is unknown, otherwise writes the new
temperature through the adapter and appends one log entry. -/
def handleUpdateTemp (s : AppState) (id : String) (temp : Int) (writeOk : Bool)
    (now : Int) : AppState × List StoreCall :=
  match findRoom s.rooms id with
  | none => (s, [])
  | some room =>
    let entry := mkLog s.currentUser "تعديل حرارة" room.name
      ("من " ++ toString room.temperature ++ "° إلى " ++ toString temp ++ "°") now
    if writeOk then
      ({ s with rooms := updateRoomById s.rooms id (fun r => { r with temperature := temp }),
                logs := s.logs ++ [entry] },
       [StoreCall.updateRoomFields id, StoreCall.addLog entry])
    else (s, [StoreCall.updateRoomFields id])

/-- `handleUpdateStock` of `App`: reads the old quantity from the current
mirror (`room.inventory[material] || 0`, so an absent key — and a stored
`0` — reads as `0`), computes `newQty = oldQty + amount` with no clamping,
writes it through the adapter, and appends one log entry whose action is
the stock-in label for `amount > 0` and the stock-out label otherwise. -/
def handleUpdateStock (s : AppState) (id material : String) (amount : Int)
    (writeOk : Bool) (now : Int) : AppState × List StoreCall :=
  match findRoom s.rooms id with
  | none => (s, [])
  | some room =>
    let oldQty := (getQty room.inventory material).getD 0
    let newQty := oldQty + amount
    let actionType := if amount > 0 then "إدخال مخزون" else "إخراج مخزون"
    let entry := mkLog s.currentUser actionType room.name
      (material ++ ": " ++ toString oldQty ++ " -> " ++ toString newQty) now
    if writeOk then
      ({ s with rooms := storeUpdateStock s.rooms id material newQty,
                logs := s.logs ++ [entry] },
       [StoreCall.updateStock id material newQty, StoreCall.addLog entry])
    else (s, [StoreCall.updateStock id material newQty])

/-- The JavaScript falsiness test `!room.fermentationStart` on the nullable
numeric field: true exactly for `null` and `0`. -/
def jsFalsyTimestamp : Option Int → Bool
  | none => true
  | some t => t = 0

/-- `handleToggleFermentation` of `App`: `isStarting = !room.fermentationStart`,
so a stored timestamp `0` counts as *not* started; when starting, the field
is set to `Date.now()` (`now`), when stopping it is set to `null`. -/
def handleToggleFermentation (s : AppState) (id : String) (writeOk : Bool)
    (now : Int) : AppState × List StoreCall :=
  match findRoom s.rooms id with
  | none => (s, [])
  | some room =>
    let isStarting := jsFalsyTimestamp room.fermentationStart
    let newStart : Option Int := if isStarting then some now else none
    let action := if isStarting then "بدء تخمير" else "إيقاف تخمير"
    let details := if isStarting then "بدأت العملية" else "تم إيقاف العملية"
    let entry := mkLog s.currentUser action room.name details now
    if writeOk then
      ({ s with rooms := updateRoomById s.rooms id (fun r => { r with fermentationStart := newStart }),
                logs := s.logs ++ [entry] },
       [StoreCall.updateRoomFields id, StoreCall.addLog entry])
    else (s, [StoreCall.updateRoomFields id])

/-- The material-name keys of a room's inventory (`Object.keys(r.inventory)`). -/
def invKeys (r : Room) : List String := r.inventory.map Prod.fst

/-- One `Set.add` step: appends the element unless it is already present
(JavaScript `Set` keeps first-insertion order and never duplicates). -/
def addUnique (acc : List String) (x : String) : List String :=
  if x ∈ acc then acc else acc ++ [x]

/-- `allMaterials` of `App`: the `Set` built by inserting every inventory
key of every room and then every seed material, read back as an array. -/
def allMaterials (rooms : List Room) : List String :=
  ((rooms.flatMap invKeys) ++ INITIAL_MATERIALS).foldl addUnique []

/-- The characters of a string, each lower-cased (`s.toLowerCase()`,
restricted — like Lean's `Char.toLower` — to ASCII case mapping). -/
def lowerChars (s : String) : List Char := s.data.map Char.toLower

/-- Case-insensitive substring test: `s.toLowerCase().includes(q.toLowerCase())`. -/
def containsCI (s q : String) : Bool :=
  decide (lowerChars q <:+: lowerChars s)

/-- The filter predicate of `filteredRooms`: the room's name, or some
inventory material key, contains the (already arbitrary-case) query as a
case-insensitive substring. -/
def roomMatches (q : String) (r : Room) : Bool :=
  containsCI r.name q || (invKeys r).any (fun k => containsCI k q)

/-- `filteredRooms` of `App`: the empty query (falsy in JavaScript) returns
the room list unfiltered; otherwise the rooms are filtered by
`roomMatches`, preserving order. -/
def filteredRooms (searchQuery : String) (rooms : List Room) : List Room :=
  if searchQuery = "" then rooms else rooms.filter (roomMatches searchQuery)

/-- `stats.totalRooms` of `App`. -/
def statsTotalRooms (rooms : List Room) : Nat := rooms.length

/-- `stats.activeFermentation` of `App`: rooms with non-null `fermentationStart`. -/
def statsActiveFermentation (rooms : List Room) : Nat :=
  (rooms.filter (fun r => r.fermentationStart ≠ none)).length

/-- `stats.totalItems` of `App`: `rooms.reduce((acc, r) => acc +
Object.keys(r.inventory).length, 0)`. -/
def statsTotalItems (rooms : List Room) : Nat :=
  rooms.foldl (fun acc r => acc + (invKeys r).length) 0

/-- The Add-room control of `App` is rendered only when
`currentUser === UserRole.ADMIN` (the conditional around the button). -/
def addRoomControlVisible (s : AppState) : Bool :=
  decide (s.currentUser = UserRole.ADMIN)

/-- One mutation call, with its inputs and the fate (`writeOk`) of its
underlying store write. -/
inductive MutCmd where
  | addRoom (nameInput : Option String) (writeOk : Bool) (now : Int) (newId : String)
  | updateTemp (id : String) (temp : Int) (writeOk : Bool) (now : Int)
  | updateStock (id material : String) (amount : Int) (writeOk : Bool) (now : Int)
  | toggleFerm (id : String) (writeOk : Bool) (now : Int)
deriving Repr, DecidableEq

/-- Dispatch a mutation call to its handler. -/
def runCmd (s : AppState) : MutCmd → AppState × List StoreCall
  | .addRoom nameInput writeOk now newId => handleAddRoom s nameInput writeOk now newId
  | .updateTemp id temp writeOk now => handleUpdateTemp s id temp writeOk now
  | .updateStock id material amount writeOk now =>
      handleUpdateStock s id material amount writeOk now
  | .toggleFerm id writeOk now => handleToggleFermentation s id writeOk now

/-- Whether a mutation call, issued in state `s`, is a *successful*
mutation: its input validation passes (non-empty name, known target id) and
its underlying store write callSucceeds. -/
def callSucceeds (s : AppState) : MutCmd → Bool
  | .addRoom nameInput writeOk _ _ => if nameInput.getD "" = "" then false else writeOk
  | .updateTemp id _ writeOk _ =>
      match findRoom s.rooms id with | none => false | some _ => writeOk
  | .updateStock id _ _ writeOk _ =>
      match findRoom s.rooms id with | none => false | some _ => writeOk
  | .toggleFerm id writeOk _ =>
      match findRoom s.rooms id with | none => false | some _ => writeOk

/-- The `writeOk` fate of a call's underlying store write. -/
def writeOkOf : MutCmd → Bool
  | .addRoom _ writeOk _ _ => writeOk
  | .updateTemp _ _ writeOk _ => writeOk
  | .updateStock _ _ _ writeOk _ => writeOk
  | .toggleFerm _ writeOk _ => writeOk

/-- Run a sequence of mutation calls from a state. -/
def runAll (s : AppState) : List MutCmd → AppState
  | [] => s
  | c :: cs => runAll (runCmd s c).1 cs

/-- The number of successful calls in a sequence, counted in the state in
which each call actually runs. -/
def countSuccesses (s : AppState) : List MutCmd → Nat
  | [] => 0
  | c :: cs => (if callSucceeds s c then 1 else 0) + countSuccesses (runCmd s c).1 cs

/-! ## Helper lemmas about the inventory record and the room list -/

/-- Writing a key and reading it back yields the written value. -/
theorem getQty_setKey_self (l : List (String × Int)) (material : String) (v : Int) :
    getQty (setKey l material v) material = some v := by
  induction l with
  | nil => simp [setKey, getQty]
  | cons hd tl ih =>
    obtain ⟨k, w⟩ := hd
    by_cases h : k = material
    · simp [setKey, h, getQty]
    · simp [setKey, h, getQty, ih]

/-- Writing one key leaves the values of all other keys unchanged. -/
theorem getQty_setKey_other (l : List (String × Int)) (material other : String) (v : Int)
    (h : other ≠ material) : getQty (setKey l material v) other = getQty l other := by
  induction l with
  | nil => simp [setKey, getQty, Ne.symm h]
  | cons hd tl ih =>
    obtain ⟨k, w⟩ := hd
    by_cases hk : k = material
    · subst hk
      simp [setKey, getQty, Ne.symm h]
    · simp [setKey, hk, getQty, ih]

/-- The keys after a `setKey` are the old keys when the key was present,
and the old keys extended by the new key otherwise. -/
theorem mem_keys_setKey (l : List (String × Int)) (material x : String) (v : Int) :
    x ∈ (setKey l material v).map Prod.fst ↔ x ∈ l.map Prod.fst ∨ x = material := by
  induction l with
  | nil => simp [setKey]
  | cons hd tl ih =>
    obtain ⟨k, w⟩ := hd
    by_cases h : k = material
    · subst h
      by_cases hx : x = k <;> simp [setKey, hx]
    · simp only [setKey, h, if_false, List.map_cons, List.mem_cons]
      rw [ih]
      tauto

/-- Updating a room by id preserves lookup of that id: the found room is
the updated one, provided the update does not change the id field. -/
theorem findRoom_updateRoomById (l : List Room) (id : String) (g : Room → Room)
    (hg : ∀ r, (g r).id = r.id) (room : Room) (h : findRoom l id = some room) :
    findRoom (updateRoomById l id g) id = some (g room) := by
  induction l with
  | nil => simp [findRoom] at h
  | cons hd tl ih =>
    by_cases hid : hd.id = id
    · rw [findRoom, if_pos hid] at h
      injection h with h
      subst h
      rw [updateRoomById, if_pos hid, findRoom, if_pos ((hg hd).trans hid)]
    · rw [findRoom, if_neg hid] at h
      rw [updateRoomById, if_neg hid, findRoom, if_neg hid]
      exact ih h

/-- Updating a room by id does not change the length of the room list. -/
theorem length_updateRoomById (l : List Room) (id : String) (g : Room → Room) :
    (updateRoomById l id g).length = l.length := by
  induction l with
  | nil => rfl
  | cons hd tl ih => simp [updateRoomById, ih]

/-! ## Helper lemmas about the materials catalog -/

/-- Membership in a `Set`-style fold: an element is in the result exactly
when it is in the accumulator or in the inserted list. -/
theorem mem_foldl_addUnique (l : List String) (acc : List String) (x : String) :
    x ∈ l.foldl addUnique acc ↔ x ∈ acc ∨ x ∈ l := by
  induction l generalizing acc with
  | nil => simp
  | cons hd tl ih =>
    rw [List.foldl_cons, ih]
    unfold addUnique
    by_cases h : hd ∈ acc
    · simp only [h, if_pos]
      constructor
      · rintro (hx | hx)
        · exact Or.inl hx
        · exact Or.inr (List.mem_cons_of_mem _ hx)
      · rintro (hx | hx)
        · exact Or.inl hx
        · rcases List.mem_cons.mp hx with rfl | hx
          · exact Or.inl h
          · exact Or.inr hx
    · simp only [h, if_neg, not_false_iff, List.mem_append, List.mem_singleton]
      constructor
      · rintro ((hx | rfl) | hx)
        · exact Or.inl hx
        · exact Or.inr (List.mem_cons_self _ _)
        · exact Or.inr (List.mem_cons_of_mem _ hx)
      · rintro (hx | hx)
        · exact Or.inl (Or.inl hx)
        · rcases List.mem_cons.mp hx with rfl | hx
          · exact Or.inl (Or.inr rfl)
          · exact Or.inr hx

/-- A `Set`-style fold from a duplicate-free accumulator stays duplicate-free. -/
theorem nodup_foldl_addUnique (l : List String) (acc : List String)
    (hacc : acc.Nodup) : (l.foldl addUnique acc).Nodup := by
  induction l generalizing acc with
  | nil => simpa
  | cons hd tl ih =>
    rw [List.foldl_cons]
    apply ih
    unfold addUnique
    by_cases h : hd ∈ acc
    · simpa [h]
    · simp only [h, if_neg, not_false_iff]
      exact List.Nodup.append hacc (List.nodup_singleton hd)
        (by intro a ha hb; rw [List.mem_singleton] at hb; exact h (hb ▸ ha))

/-- `stats.totalItems` as a sum over rooms of the number of inventory keys. -/
theorem statsTotalItems_eq_sum (rooms : List Room) :
    statsTotalItems rooms = (rooms.map (fun r => (invKeys r).length)).sum := by
  have aux : ∀ (l : List Room) (n : Nat),
      l.foldl (fun acc r => acc + (invKeys r).length) n
        = n + (l.map (fun r => (invKeys r).length)).sum := by
    intro l
    induction l with
    | nil => simp
    | cons hd tl ih => intro n; simp [ih, Nat.add_assoc]
  simpa [statsTotalItems] using aux rooms 0

/-! ## Concrete fixtures used by counterexamples and witnesses -/

/-- A room holding 5 units of sugar, fermentation inactive. -/
def roomSugar : Room :=
  { id := "r1", name := "R1", temperature := 20,
    inventory := [("سكر", 5)], fermentationStart := none }

/-- A one-room mirror with `roomSugar`, Admin session. -/
def stSugar : AppState :=
  { rooms := [roomSugar], logs := [], currentUser := UserRole.ADMIN }

/-- A room whose `fermentationStart` is the non-null timestamp `0`. -/
def roomZeroFerm : Room :=
  { id := "r2", name := "R2", temperature := 18,
    inventory := [], fermentationStart := some 0 }

/-- A one-room mirror with `roomZeroFerm`, Admin session. -/
def stZeroFerm : AppState :=
  { rooms := [roomZeroFerm], logs := [], currentUser := UserRole.ADMIN }

/-- An empty mirror whose session role is Guest. -/
def stGuest : AppState :=
  { rooms := [], logs := [], currentUser := UserRole.GUEST }

/-- The freshly created room "R1" of the spec's stock scenario. -/
def roomEmptyR1 : Room :=
  { id := "r1", name := "R1", temperature := 20,
    inventory := [], fermentationStart := none }

/-- A one-room mirror with the empty room "R1", Admin session. -/
def stScenario : AppState :=
  { rooms := [roomEmptyR1], logs := [], currentUser := UserRole.ADMIN }

/-- A room holding a material key with stored quantity `0`. -/
def roomZeroQty : Room :=
  { id := "r3", name := "R3", temperature := 10,
    inventory := [("خل", 0)], fermentationStart := none }

/-! ## C1 — stock adjustment and the non-negativity invariant -/

/-- C1 counterexample: in a room holding 5 units of sugar, adjusting stock
by −10 writes −5 to `inventory["سكر"]` in the mirror, not
`max(0, 5 + (−10)) = 0`; the mirrored quantity is negative. -/
theorem C1_counterexample :
    (findRoom (handleUpdateStock stSugar "r1" "سكر" (-10) true 0).1.rooms "r1").map
        (fun r => getQty r.inventory "سكر") = some (some (-5)) ∧
    ((-5 : Int) ≠ max 0 ((5 : Int) + (-10))) ∧ ((-5 : Int) < 0) := by
  refine ⟨by decide, by decide, by decide⟩

/-- C1 (amended): for every room whose id exists in the mirror, Adjust
stock writes new quantity = old + delta to `inventory[material]` with no
clamping at 0 (old is read from the mirror, 0 when the key is absent), so a
decrease larger than the current stock makes the mirrored quantity
negative; adjusting by −Q when the quantity is Q still yields 0, and every
such adjustment appends exactly one log entry. -/
theorem C1_adjust_stock_unclamped (s : AppState) (id material : String)
    (amount now : Int) (room : Room) (h : findRoom s.rooms id = some room) :
    (findRoom (handleUpdateStock s id material amount true now).1.rooms id).map
        (fun r => getQty r.inventory material)
      = some (some ((getQty room.inventory material).getD 0 + amount)) ∧
    (handleUpdateStock s id material amount true now).1.logs.length
      = s.logs.length + 1 := by
  have hfind := findRoom_updateRoomById s.rooms id
      (fun r => { r with inventory := setKey r.inventory material ((getQty room.inventory material).getD 0 + amount) })
      (fun r => rfl) room h
  constructor
  · simp only [handleUpdateStock, h, if_pos, storeUpdateStock]
    rw [hfind]
    simp [getQty_setKey_self]
  · simp [handleUpdateStock, h]

/-- C1 witness: the amended theorem at the concrete sugar room, adjusting
by the negated current quantity. -/
theorem C1_witness :
    (findRoom (handleUpdateStock stSugar "r1" "سكر" (-5) true 0).1.rooms "r1").map
        (fun r => getQty r.inventory "سكر")
      = some (some ((getQty roomSugar.inventory "سكر").getD 0 + (-5))) ∧
    (handleUpdateStock stSugar "r1" "سكر" (-5) true 0).1.logs.length
      = stSugar.logs.length + 1 :=
  C1_adjust_stock_unclamped stSugar "r1" "سكر" (-5) 0 roomSugar (by decide)

/-! ## C2 — one log entry per successful mutation -/

/-- A single mutation call changes the log length by one exactly when the
call is successful, and by zero otherwise. -/
theorem runCmd_logs_length (s : AppState) (c : MutCmd) :
    (runCmd s c).1.logs.length
      = s.logs.length + (if callSucceeds s c then 1 else 0) := by
  cases c with
  | addRoom nameInput writeOk now newId =>
    simp only [runCmd, handleAddRoom, callSucceeds]
    by_cases h : nameInput.getD "" = ""
    · simp [h]
    · cases writeOk <;> simp [h]
  | updateTemp id temp writeOk now =>
    cases hf : findRoom s.rooms id with
    | none => simp [runCmd, handleUpdateTemp, callSucceeds, hf]
    | some room => cases writeOk <;> simp [runCmd, handleUpdateTemp, callSucceeds, hf]
  | updateStock id material amount writeOk now =>
    cases hf : findRoom s.rooms id with
    | none => simp [runCmd, handleUpdateStock, callSucceeds, hf]
    | some room => cases writeOk <;> simp [runCmd, handleUpdateStock, callSucceeds, hf]
  | toggleFerm id writeOk now =>
    cases hf : findRoom s.rooms id with
    | none => simp [runCmd, handleToggleFermentation, callSucceeds, hf]
    | some room => cases writeOk <;> simp [runCmd, handleToggleFermentation, callSucceeds, hf]

/-- When the underlying store write of a call fails, the handler appends no
log entry. -/
theorem runCmd_logs_of_writeFail (s : AppState) (c : MutCmd)
    (h : writeOkOf c = false) : (runCmd s c).1.logs = s.logs := by
  cases c with
  | addRoom nameInput writeOk now newId =>
    simp only [writeOkOf] at h
    subst h
    simp only [runCmd, handleAddRoom]
    by_cases hn : nameInput.getD "" = "" <;> simp [hn]
  | updateTemp id temp writeOk now =>
    simp only [writeOkOf] at h
    subst h
    cases hf : findRoom s.rooms id <;> simp [runCmd, handleUpdateTemp, hf]
  | updateStock id material amount writeOk now =>
    simp only [writeOkOf] at h
    subst h
    cases hf : findRoom s.rooms id <;> simp [runCmd, handleUpdateStock, hf]
  | toggleFerm id writeOk now =>
    simp only [writeOkOf] at h
    subst h
    cases hf : findRoom s.rooms id <;> simp [runCmd, handleToggleFermentation, hf]

/-- C2: over every sequence of mutation calls, each successful call appends
exactly one log entry, a call whose underlying store write fails appends
none, and the total number of log entries created equals the number of
successful calls. -/
theorem C2_log_per_successful_mutation :
    (∀ (s : AppState) (cmds : List MutCmd),
        (runAll s cmds).logs.length = s.logs.length + countSuccesses s cmds) ∧
    (∀ (s : AppState) (c : MutCmd),
        writeOkOf c = false → (runCmd s c).1.logs = s.logs) := by
  constructor
  · intro s cmds
    induction cmds generalizing s with
    | nil => simp [runAll, countSuccesses]
    | cons c cs ih =>
      rw [runAll, countSuccesses, ih, runCmd_logs_length]
      omega
  · exact fun s c h => runCmd_logs_of_writeFail s c h

/-- C2 witness: a concrete three-call sequence (a successful temperature
update, a call on an unknown room id, a failed-write stock adjustment)
creates exactly one log entry, and a failed write appends nothing. -/
theorem C2_witness :
    (runAll stSugar
        [MutCmd.updateTemp "r1" 25 true 3,
         MutCmd.updateTemp "zz" 25 true 4,
         MutCmd.updateStock "r1" "سكر" 2 false 5]).logs.length
      = stSugar.logs.length + countSuccesses stSugar
          [MutCmd.updateTemp "r1" 25 true 3,
           MutCmd.updateTemp "zz" 25 true 4,
           MutCmd.updateStock "r1" "سكر" 2 false 5] ∧
    (runCmd stSugar (MutCmd.updateStock "r1" "سكر" 2 false 5)).1.logs
      = stSugar.logs :=
  ⟨C2_log_per_successful_mutation.1 stSugar
      [MutCmd.updateTemp "r1" 25 true 3,
       MutCmd.updateTemp "zz" 25 true 4,
       MutCmd.updateStock "r1" "سكر" 2 false 5],
   C2_log_per_successful_mutation.2 stSugar
      (MutCmd.updateStock "r1" "سكر" 2 false 5) (by decide)⟩

/-! ## C3 — role gating of the Add-room mutation -/

/-- C3 counterexample: with the session role Guest, invoking the Add-room
handler with a valid name and a successful write creates a room and
produces a log entry (tagged with the Guest role) — the attempt is not
rejected, because `handleAddRoom` performs no role check. -/
theorem C3_counterexample :
    stGuest.currentUser ≠ UserRole.ADMIN ∧
    (handleAddRoom stGuest (some "R1") true 0 "id1").1.rooms.length = 1 ∧
    (handleAddRoom stGuest (some "R1") true 0 "id1").1.logs
      = [mkLog UserRole.GUEST "إضافة غرفة" "R1" "تم إنشاء غرفة جديدة" 0] := by
  refine ⟨by decide, by decide, by decide⟩

/-- C3 (amended): the Add-room control is rendered exactly when the session
role is Admin, so Auditor and Guest cannot reach the Add-room mutation
through the UI (hence no Room and no LogEntry arise from them in normal
operation); the handler itself, however, performs no role check and no
user-visible rejection exists: invoked with a valid name and a successful
write, it creates a room and a log entry whatever the current role is. -/
theorem C3_add_room_admin_gated (s : AppState) :
    (addRoomControlVisible s = true ↔ s.currentUser = UserRole.ADMIN) ∧
    (∀ (nameInput : Option String) (now : Int) (newId : String),
        nameInput.getD "" ≠ "" →
        (handleAddRoom s nameInput true now newId).1.rooms.length
            = s.rooms.length + 1 ∧
        (handleAddRoom s nameInput true now newId).1.logs.length
            = s.logs.length + 1) := by
  constructor
  · simp [addRoomControlVisible]
  · intro nameInput now newId h
    constructor <;> simp [handleAddRoom, h, storeAddRoom]

/-- C3 witness: the amended theorem at the Guest-session mirror. -/
theorem C3_witness :
    (addRoomControlVisible stGuest = true ↔ stGuest.currentUser = UserRole.ADMIN) ∧
    ((handleAddRoom stGuest (some "R2") true 0 "id2").1.rooms.length
        = stGuest.rooms.length + 1 ∧
     (handleAddRoom stGuest (some "R2") true 0 "id2").1.logs.length
        = stGuest.logs.length + 1) :=
  ⟨(C3_add_room_admin_gated stGuest).1,
   (C3_add_room_admin_gated stGuest).2 (some "R2") 0 "id2" (by decide)⟩

/-! ## C4 and C10 — fermentation toggling -/

/-- The room update performed by the toggle write: set `fermentationStart`
to the given value. -/
def setFermVal (v : Option Int) (r : Room) : Room :=
  { r with fermentationStart := v }

/-- The effect of a toggle with a successful write on a room found in the
mirror: `fermentationStart` becomes `now` when the old value is falsy
(`null` or `0`) and `null` otherwise, and the matching start/stop log entry
is appended. -/
theorem toggle_effect (s : AppState) (id : String) (now : Int) (room : Room)
    (h : findRoom s.rooms id = some room) :
    (handleToggleFermentation s id true now).1.rooms
        = updateRoomById s.rooms id
            (setFermVal (if jsFalsyTimestamp room.fermentationStart then some now else none)) ∧
    (handleToggleFermentation s id true now).1.logs
        = s.logs ++ [mkLog s.currentUser
            (if jsFalsyTimestamp room.fermentationStart then "بدء تخمير" else "إيقاف تخمير")
            room.name
            (if jsFalsyTimestamp room.fermentationStart then "بدأت العملية" else "تم إيقاف العملية")
            now] ∧
    (handleToggleFermentation s id true now).1.currentUser = s.currentUser := by
  cases hj : jsFalsyTimestamp room.fermentationStart <;>
    refine ⟨?_, ?_, ?_⟩ <;>
      simp [handleToggleFermentation, h, hj, setFermVal] <;> rfl

/-- The toggled room, as found again in the mirror after the write. -/
theorem toggle_find (s : AppState) (id : String) (now : Int) (room : Room)
    (h : findRoom s.rooms id = some room) :
    findRoom (handleToggleFermentation s id true now).1.rooms id
      = some (setFermVal
          (if jsFalsyTimestamp room.fermentationStart then some now else none) room) := by
  rw [(toggle_effect s id now room h).1]
  exact findRoom_updateRoomById s.rooms id
    (setFermVal (if jsFalsyTimestamp room.fermentationStart then some now else none))
    (fun r => rfl) room h

/-- C4 counterexample: on a room whose `fermentationStart` is the non-null
value `0`, toggling sets the field to the current timestamp (here `1000`)
and logs the start action — not to `null` with a stop action as the claim
requires for every non-null value. -/
theorem C4_counterexample :
    roomZeroFerm.fermentationStart ≠ none ∧
    (findRoom (handleToggleFermentation stZeroFerm "r2" true 1000).1.rooms "r2").map
        (fun r => r.fermentationStart) = some (some 1000) ∧
    (handleToggleFermentation stZeroFerm "r2" true 1000).1.logs
      = [mkLog UserRole.ADMIN "بدء تخمير" "R2" "بدأت العملية" 1000] := by
  refine ⟨by decide, by decide, by decide⟩

/-- C4 (amended): for every room whose id exists in the mirror, Toggle
fermentation flips on the JavaScript truthiness of `fermentationStart`: a
non-null, nonzero timestamp is set to `null` with the stop log entry; a
`null` — or the non-null value `0` — is set to the current timestamp with
the start log entry.  Toggling twice starting from `null`, with a nonzero
clock, returns `fermentationStart` to `null`. -/
theorem C4_toggle_flips (s : AppState) (id : String) (now now2 : Int)
    (room : Room) (h : findRoom s.rooms id = some room) :
    (∀ t : Int, room.fermentationStart = some t → t ≠ 0 →
        (findRoom (handleToggleFermentation s id true now).1.rooms id).map
            (fun r => r.fermentationStart) = some none ∧
        (handleToggleFermentation s id true now).1.logs
          = s.logs ++ [mkLog s.currentUser "إيقاف تخمير" room.name "تم إيقاف العملية" now]) ∧
    ((room.fermentationStart = none ∨ room.fermentationStart = some 0) →
        (findRoom (handleToggleFermentation s id true now).1.rooms id).map
            (fun r => r.fermentationStart) = some (some now) ∧
        (handleToggleFermentation s id true now).1.logs
          = s.logs ++ [mkLog s.currentUser "بدء تخمير" room.name "بدأت العملية" now]) ∧
    (room.fermentationStart = none → now ≠ 0 →
        (findRoom (handleToggleFermentation
            (handleToggleFermentation s id true now).1 id true now2).1.rooms id).map
          (fun r => r.fermentationStart) = some none) := by
  refine ⟨?_, ?_, ?_⟩
  · intro t ht ht0
    have hj : jsFalsyTimestamp room.fermentationStart = false := by
      simp [jsFalsyTimestamp, ht, ht0]
    rw [toggle_find s id now room h, (toggle_effect s id now room h).2.1, hj]
    simp [setFermVal]
  · intro hfalsy
    have hj : jsFalsyTimestamp room.fermentationStart = true := by
      rcases hfalsy with h0 | h0 <;> simp [jsFalsyTimestamp, h0]
    rw [toggle_find s id now room h, (toggle_effect s id now room h).2.1, hj]
    simp [setFermVal]
  · intro hnone hnow
    have hj : jsFalsyTimestamp room.fermentationStart = true := by
      simp [jsFalsyTimestamp, hnone]
    have hf1 : findRoom (handleToggleFermentation s id true now).1.rooms id
        = some (setFermVal (some now) room) := by
      rw [toggle_find s id now room h, hj]
      simp
    have hf2 := toggle_find (handleToggleFermentation s id true now).1 id now2
      (setFermVal (some now) room) hf1
    have hj2 : jsFalsyTimestamp (setFermVal (some now) room).fermentationStart = false := by
      simp [jsFalsyTimestamp, setFermVal, hnow]
    rw [hf2, hj2]
    simp [setFermVal]

/-- C4 witness: the amended theorem at the sugar room (fermentation
inactive): one toggle starts fermentation at time 7, a second toggle at
time 9 returns the field to `null`. -/
theorem C4_witness :
    ((findRoom (handleToggleFermentation stSugar "r1" true 7).1.rooms "r1").map
        (fun r => r.fermentationStart) = some (some 7) ∧
     (handleToggleFermentation stSugar "r1" true 7).1.logs
       = stSugar.logs ++ [mkLog stSugar.currentUser "بدء تخمير" roomSugar.name "بدأت العملية" 7]) ∧
    (findRoom (handleToggleFermentation
        (handleToggleFermentation stSugar "r1" true 7).1 "r1" true 9).1.rooms "r1").map
      (fun r => r.fermentationStart) = some none := by
  have h := C4_toggle_flips stSugar "r1" 7 9 roomSugar (by decide)
  exact ⟨h.2.1 (Or.inl (by decide)), h.2.2 (by decide) (by decide)⟩

/-- C10: for a room whose `fermentationStart` equals the non-null value
`0`, Toggle fermentation treats the room as inactive: it sets
`fermentationStart` to the current timestamp and appends a log entry with
the fermentation-started action, rather than setting it to `null`. -/
theorem C10_toggle_zero_starts (s : AppState) (id : String) (now : Int)
    (room : Room) (h : findRoom s.rooms id = some room)
    (h0 : room.fermentationStart = some 0) :
    (findRoom (handleToggleFermentation s id true now).1.rooms id).map
        (fun r => r.fermentationStart) = some (some now) ∧
    (handleToggleFermentation s id true now).1.logs
      = s.logs ++ [mkLog s.currentUser "بدء تخمير" room.name "بدأت العملية" now] := by
  have hj : jsFalsyTimestamp room.fermentationStart = true := by
    simp [jsFalsyTimestamp, h0]
  constructor
  · rw [toggle_find s id now room h, hj]
    simp [setFermVal]
  · rw [(toggle_effect s id now room h).2.1, hj]
    simp

/-- C10 witness: the zero-timestamp room is toggled at time 555 and starts
fermentation. -/
theorem C10_witness :
    (findRoom (handleToggleFermentation stZeroFerm "r2" true 555).1.rooms "r2").map
        (fun r => r.fermentationStart) = some (some 555) ∧
    (handleToggleFermentation stZeroFerm "r2" true 555).1.logs
      = stZeroFerm.logs
          ++ [mkLog stZeroFerm.currentUser "بدء تخمير" roomZeroFerm.name "بدأت العملية" 555] :=
  C10_toggle_zero_starts stZeroFerm "r2" 555 roomZeroFerm (by decide) (by decide)

/-! ## C5 — the stock-adjustment log entry -/

/-- C5 counterexample: in the spec's own scenario (Admin, fresh room "R1",
`updateStock("R1", "سكر", +10)`) the appended entry's action is the Arabic
stock-in label, not the literal string "stock in", and its details use the
ASCII separator " -> ", not the arrow "→" of the claimed form. -/
theorem C5_counterexample :
    (handleUpdateStock stScenario "r1" "سكر" 10 true 0).1.logs
      = [mkLog UserRole.ADMIN "إدخال مخزون" "R1" "سكر: 0 -> 10" 0] ∧
    ("سكر: 0 -> 10" ≠ "سكر: 0 → 10") ∧
    ("إدخال مخزون" ≠ "stock in") := by
  refine ⟨by decide, by decide, by decide⟩

/-- C5 (amended): for every Adjust-stock call on an existing room with a
successful write, the appended log entry's action is the stock-in label
"إدخال مخزون" when delta > 0 and the stock-out label "إخراج مخزون"
otherwise, and its details are `material ++ ": " ++ old ++ " -> " ++ new`
(ASCII arrow), where old is the quantity read from the current local
mirror — 0 when the material key is absent — and new = old + delta. -/
theorem C5_stock_log_shape (s : AppState) (id material : String)
    (amount now : Int) (room : Room) (h : findRoom s.rooms id = some room) :
    (handleUpdateStock s id material amount true now).1.logs
      = s.logs ++ [mkLog s.currentUser
          (if amount > 0 then "إدخال مخزون" else "إخراج مخزون")
          room.name
          (material ++ ": " ++ toString ((getQty room.inventory material).getD 0)
            ++ " -> " ++ toString ((getQty room.inventory material).getD 0 + amount))
          now] := by
  simp [handleUpdateStock, h]

/-- C5 witness: the amended theorem at the scenario state, where the
material key is absent so the old quantity reads as 0. -/
theorem C5_witness :
    (handleUpdateStock stScenario "r1" "سكر" 10 true 5).1.logs
      = stScenario.logs ++ [mkLog stScenario.currentUser
          (if (10 : Int) > 0 then "إدخال مخزون" else "إخراج مخزون")
          roomEmptyR1.name
          ("سكر" ++ ": " ++ toString ((getQty roomEmptyR1.inventory "سكر").getD 0)
            ++ " -> " ++ toString ((getQty roomEmptyR1.inventory "سكر").getD 0 + 10))
          5] :=
  C5_stock_log_shape stScenario "r1" "سكر" 10 5 roomEmptyR1 (by decide)

/-! ## C6 — the filtered rooms view -/

/-- C6: the empty query returns the full current room list unchanged; a
filtered result is always an order-preserving sublist of the room list; and
a room is in the filtered view exactly when it is in the mirror and either
the query is empty or the room's name or some inventory material key
contains the query as a case-insensitive substring. -/
theorem C6_filtered_rooms_exact (rooms : List Room) (q : String) :
    filteredRooms "" rooms = rooms ∧
    List.Sublist (filteredRooms q rooms) rooms ∧
    (∀ r, r ∈ filteredRooms q rooms ↔
        r ∈ rooms ∧ (q = "" ∨ roomMatches q r = true)) ∧
    (∀ r, roomMatches q r = true ↔
        (containsCI r.name q = true ∨ ∃ k, k ∈ invKeys r ∧ containsCI k q = true)) := by
  refine ⟨by simp [filteredRooms], ?_, ?_, ?_⟩
  · unfold filteredRooms
    by_cases h : q = ""
    · simp [h]
    · simp only [h, if_neg, not_false_iff]
      exact List.filter_sublist rooms
  · intro r
    unfold filteredRooms
    by_cases h : q = ""
    · simp [h]
    · simp [h, List.mem_filter]
  · intro r
    simp [roomMatches, List.any_eq_true]

/-- C6 witness: the exact-filter theorem evaluated at the one-room mirror
and a query matching an inventory key. -/
theorem C6_witness :
    filteredRooms "" [roomSugar] = [roomSugar] ∧
    (roomSugar ∈ filteredRooms "كر" [roomSugar] ↔
        roomSugar ∈ [roomSugar] ∧ ("كر" = "" ∨ roomMatches "كر" roomSugar = true)) :=
  ⟨(C6_filtered_rooms_exact [roomSugar] "").1,
   (C6_filtered_rooms_exact [roomSugar] "كر").2.2.1 roomSugar⟩

/-! ## C7 — the materials catalog -/

/-- C7: a material name is in the catalog exactly when it is a seed
material or an inventory key of some room, and the catalog never contains
duplicates. -/
theorem C7_materials_catalog (rooms : List Room) (x : String) :
    (x ∈ allMaterials rooms ↔
        (x ∈ INITIAL_MATERIALS ∨ ∃ r, r ∈ rooms ∧ x ∈ invKeys r)) ∧
    (allMaterials rooms).Nodup := by
  constructor
  · unfold allMaterials
    rw [mem_foldl_addUnique]
    simp only [List.not_mem_nil, false_or, List.mem_append, List.mem_flatMap]
    constructor
    · rintro (⟨r, hr, hx⟩ | hx)
      · exact Or.inr ⟨r, hr, hx⟩
      · exact Or.inl hx
    · rintro (hx | ⟨r, hr, hx⟩)
      · exact Or.inr hx
      · exact Or.inl ⟨r, hr, hx⟩
  · exact nodup_foldl_addUnique _ _ List.nodup_nil

/-- C7 witness: the catalog of the sugar-room mirror contains the room's
inventory key as well as every seed material, with no duplicates. -/
theorem C7_witness :
    ("سكر" ∈ allMaterials [roomSugar] ↔
        ("سكر" ∈ INITIAL_MATERIALS ∨ ∃ r, r ∈ [roomSugar] ∧ "سكر" ∈ invKeys r)) ∧
    (allMaterials [roomSugar]).Nodup :=
  C7_materials_catalog [roomSugar] "سكر"

/-! ## C8 — invalid input is rejected before any network call -/

/-- C8: a mutation call with invalid input — an empty (or cancelled) room
name for Add room, or a target room id not present in the current mirror
for Update temperature, Adjust stock, or Toggle fermentation — returns
with the state unchanged and an empty list of network calls: the store is
never contacted and no log entry is produced. -/
theorem C8_invalid_input_rejected (s : AppState) :
    (∀ (nameInput : Option String) (writeOk : Bool) (now : Int) (newId : String),
        nameInput.getD "" = "" →
        handleAddRoom s nameInput writeOk now newId = (s, [])) ∧
    (∀ (id : String) (temp amount now : Int) (material : String) (writeOk : Bool),
        findRoom s.rooms id = none →
        handleUpdateTemp s id temp writeOk now = (s, []) ∧
        handleUpdateStock s id material amount writeOk now = (s, []) ∧
        handleToggleFermentation s id writeOk now = (s, [])) := by
  constructor
  · intro nameInput writeOk now newId h
    simp [handleAddRoom, h]
  · intro id temp amount now material writeOk h
    refine ⟨?_, ?_, ?_⟩ <;>
      simp [handleUpdateTemp, handleUpdateStock, handleToggleFermentation, h]

/-- C8 witness: the empty name and an unknown room id at the concrete
sugar-room mirror, covering all four mutations. -/
theorem C8_witness :
    handleAddRoom stSugar (some "") true 0 "idX" = (stSugar, []) ∧
    handleAddRoom stSugar none true 0 "idX" = (stSugar, []) ∧
    handleUpdateTemp stSugar "nope" 5 true 0 = (stSugar, []) ∧
    handleUpdateStock stSugar "nope" "سكر" 1 true 0 = (stSugar, []) ∧
    handleToggleFermentation stSugar "nope" true 0 = (stSugar, []) := by
  have h := C8_invalid_input_rejected stSugar
  have h2 := h.2 "nope" 5 1 0 "سكر" true (by decide)
  exact ⟨h.1 (some "") true 0 "idX" (by decide),
         h.1 none true 0 "idX" (by decide), h2.1, h2.2.1, h2.2.2⟩

/-! ## C9 — zero-quantity inventory keys count as present -/

/-- C9: a material key stored with quantity 0 in a room's inventory is
treated as present everywhere: it is among the room's inventory keys and
hence in the materials catalog; a non-empty query that is a
case-insensitive substring of that key makes the room appear in the
filtered view; and the aggregate `totalItems` statistic sums the number of
inventory keys per room, counting zero-quantity keys like any other. -/
theorem C9_zero_quantity_present (rooms : List Room) (room : Room)
    (k q : String) (hr : room ∈ rooms) (hk : (k, 0) ∈ room.inventory) :
    k ∈ invKeys room ∧
    k ∈ allMaterials rooms ∧
    (q ≠ "" → containsCI k q = true → room ∈ filteredRooms q rooms) ∧
    statsTotalItems rooms = (rooms.map (fun r => (invKeys r).length)).sum := by
  have hkey : k ∈ invKeys room := List.mem_map.mpr ⟨(k, 0), hk, rfl⟩
  refine ⟨hkey, ?_, ?_, statsTotalItems_eq_sum rooms⟩
  · unfold allMaterials
    rw [mem_foldl_addUnique]
    refine Or.inr (List.mem_append.mpr (Or.inl ?_))
    exact List.mem_flatMap.mpr ⟨room, hr, hkey⟩
  · intro hq hci
    unfold filteredRooms
    rw [if_neg hq]
    refine List.mem_filter.mpr ⟨hr, ?_⟩
    simp only [roomMatches, Bool.or_eq_true, List.any_eq_true]
    exact Or.inr ⟨k, hkey, hci⟩

/-- C9 witness: the room holding the key "خل" with quantity 0, queried with
that very key. -/
theorem C9_witness :
    "خل" ∈ invKeys roomZeroQty ∧
    "خل" ∈ allMaterials [roomZeroQty] ∧
    ("خل" ≠ "" → containsCI "خل" "خل" = true →
        roomZeroQty ∈ filteredRooms "خل" [roomZeroQty]) ∧
    statsTotalItems [roomZeroQty]
      = ([roomZeroQty].map (fun r => (invKeys r).length)).sum :=
  C9_zero_quantity_present [roomZeroQty] roomZeroQty "خل" "خل"
    (by decide) (by decide)
